import Mathlib

/-!
gogee/logging: buffered sqlite logger.

A shallow embedding of `logging/logger_sqlite.go` and `logging/logger_interface.go`.

* The package-level variables (`conn`, `stmt`, `buffer`, `flushTimeout`) are fields of `World`.
* `buffer` is a Go slice: a header `(ptr, len, cap)` over a backing array in `World.heap`.
  `append` writes in place while `len < cap` and reallocates otherwise.
* `time.Now()` is an input (`now`) of every function that reads the clock.
* The storage gateway is an oracle `ok : Nat → Bool`: whether the k-th `stmt.Exec`
  of the process succeeds.
* Every statement with an effect outside the package variables appends an `Event`
  to `World.trace` (mutex operations, buffer accesses, `Exec`, `Println`, channel
  operations, `conn.Close()`, `wg.Done()`, `os.Exit`, a panic).
* A nil pointer dereference (a method called on a nil `*sql.DB` or `*sql.Stmt`)
  is `Except.error` carrying the world at the panic.
-/

namespace Gogee

/-! ## logger_interface.go -/

def LogLevelPrefixInfo : String := "[info]"
def LogLevelPrefixWarn : String := "[warn]"
def LogLevelPrefixFatal : String := "[fatal]"

/-! ## Data model -/

/-- The `row` struct; `time` is the instant read from the clock. -/
structure row where
  prefix_ : String
  level : String
  text : String
  time : Nat
deriving DecidableEq, Repr

/-- The zero value of `row`. -/
def zeroRow : row := { prefix_ := "", level := "", text := "", time := 0 }

/-- A slice header: backing array, length, capacity (the offset is always 0:
the code only slices with `[0:]` and `[:0]`). -/
structure Slice where
  ptr : Nat
  len : Nat
  cap : Nat
deriving DecidableEq, Repr

/-- The nil slice, the initial value of `var buffer []row`. -/
def nilSlice : Slice := { ptr := 0, len := 0, cap := 0 }

/-- Backing arrays, by allocation order. -/
abbrev Heap := List (List row)

/-- The backing array of a slice. -/
def arrayOf (h : Heap) (s : Slice) : List row := h.getD s.ptr []

/-- The elements `s[0], ..., s[len(s)-1]` as the heap holds them now. -/
def elems (h : Heap) (s : Slice) : List row :=
  (List.range s.len).map (fun i => (arrayOf h s).getD i zeroRow)

/-- A slice header is well formed over a heap: `len ≤ cap ≤` size of the array. -/
def SliceOK (h : Heap) (s : Slice) : Prop :=
  s.len ≤ s.cap ∧ s.cap ≤ (arrayOf h s).length

instance (h : Heap) (s : Slice) : Decidable (SliceOK h s) := by
  unfold SliceOK; infer_instance

/-- Go's built-in `append(s, x)`. With room (`len < cap`) the element is written
into the shared backing array at index `len`; otherwise a new array that fits
`len + 1` elements plus `slack cap` spare cells is allocated and the elements copied.
`slack` is the runtime's growth policy. -/
def goAppend (slack : Nat → Nat) (h : Heap) (s : Slice) (x : row) : Heap × Slice :=
  if s.len < s.cap then
    (h.set s.ptr ((arrayOf h s).set s.len x), { s with len := s.len + 1 })
  else
    (h ++ [elems h s ++ [x] ++ List.replicate (slack s.cap) zeroRow],
     { ptr := h.length, len := s.len + 1, cap := s.len + 1 + slack s.cap })

/-- The two call sites of `go flush(flushChan, bufferCopy)` in `flushChecker`. -/
inductive Site
  | drain
  | tick
deriving DecidableEq, Repr

/-- Observable effects, in program order. -/
inductive Event
  | lock
  | unlock
  | bufRead
  | bufWrite
  | println (line : String)
  | exec (st : Nat) (a1 a2 a3 : String) (a4 : Nat) (success : Bool)
  | goFlush (site : Site)
  | flushDone
  | flushWait
  | connClose (c : Option Nat)
  | panic
  | wgDone
  | osExit (code : Nat)
  | sendBlocked
deriving DecidableEq, Repr

/-- Control point of the `flushChecker` goroutine: not started, in its `select`
loop, returned, or dead in a panic. -/
inductive Sched
  | idle
  | running
  | closed
  | crashed
deriving DecidableEq, Repr

/-- The package-level variables and the instrumentation. -/
structure World where
  conn : Option Nat
  stmt : Option Nat
  heap : Heap
  buffer : Slice
  flushTimeout : Nat
  execs : Nat
  sched : Sched
  bridge : Bool
  trace : List Event
deriving DecidableEq, Repr

/-- The package variables before `NewLoggerSqlite`: nil handles, nil buffer. -/
def initWorld : World :=
  { conn := none, stmt := none, heap := [], buffer := nilSlice, flushTimeout := 0,
    execs := 0, sched := .idle, bridge := false, trace := [] }

structure LoggerSqlite where
  prefix_ : String
deriving DecidableEq, Repr

def emit (es : List Event) (w : World) : World :=
  { w with trace := w.trace ++ es }

/-! ## Construction -/

/-- The operations of `database/sql` used at construction. -/
structure Driver where
  sqlOpen : String → Except String Nat
  ping : Nat → Except String Unit
  createTable : Nat → Except String Unit
  prepare : Nat → Except String Nat

def prepareStatement (drv : Driver) (conn : Nat) : Except String Nat :=
  match drv.ping conn with
  | .error e => .error ("[logger] ping error: " ++ e)
  | .ok _ =>
    match drv.createTable conn with
    | .error e => .error ("[logger] can not create logs table: " ++ e)
    | .ok _ =>
      match drv.prepare conn with
      | .error e => .error ("[logger] can not create prepared statement: " ++ e)
      | .ok stmt => .ok stmt

/-- `NewLoggerSqlite(ctx, wg, dbFilename, ft)`. `conn, err := sql.Open(...)` declares
a local `conn`; the package-level `conn` is not assigned. `stmt = s` assigns the
package-level `stmt`. An error is `log.Fatal` (the process ends). Both goroutines
are started. -/
def NewLoggerSqlite (drv : Driver) (dbFilename : String) (ft : Nat) (w : World) :
    Except String (LoggerSqlite × World) :=
  let w1 := { w with flushTimeout := ft }
  match drv.sqlOpen dbFilename with
  | .error e => .error ("[logger] can't open file: " ++ e)
  | .ok conn =>
    match prepareStatement drv conn with
    | .error e => .error e
    | .ok s =>
      .ok ({ prefix_ := "" }, { w1 with stmt := some s, sched := .running, bridge := true })

/-! ## Sink facade -/

/-- `(o *LoggerSqlite) insert(level, text)`: no mutex operation; `buffer` is read
and assigned. -/
def insert (slack : Nat → Nat) (o : LoggerSqlite) (level text : String) (now : Nat)
    (w : World) : World :=
  let rowEntry : row := { prefix_ := o.prefix_, level := level, text := text, time := now }
  let r := goAppend slack w.heap w.buffer rowEntry
  emit [.bufRead, .bufWrite] { w with heap := r.1, buffer := r.2 }

def Info (slack : Nat → Nat) (o : LoggerSqlite) (text : String) (now : Nat) (w : World) : World :=
  emit [.println (LogLevelPrefixInfo ++ text)] (insert slack o LogLevelPrefixInfo text now w)

def Error (slack : Nat → Nat) (o : LoggerSqlite) (text : String) (now : Nat) (w : World) : World :=
  emit [.println (LogLevelPrefixWarn ++ text)] (insert slack o LogLevelPrefixWarn text now w)

/-- `Fatal`: the append and the echo, then `os.Exit(1)`. -/
def Fatal (slack : Nat → Nat) (o : LoggerSqlite) (text : String) (now : Nat) (w : World) : World :=
  emit [.println (LogLevelPrefixFatal ++ text), .osExit 1]
    (insert slack o LogLevelPrefixFatal text now w)

/-- `WithPrefix(p)`: a new facade; no package variable is touched. -/
def WithPrefix (_o : LoggerSqlite) (p : String) (w : World) : LoggerSqlite × World :=
  ({ prefix_ := p }, w)

/-! ## Flush engine -/

/-- One `stmt.Exec(a1, a2, a3, a4)` on the prepared statement `st`. -/
def execStmt (ok : Nat → Bool) (st : Nat) (a1 a2 a3 : String) (a4 : Nat) (w : World) :
    Bool × World :=
  (ok w.execs, { w with execs := w.execs + 1,
                        trace := w.trace ++ [.exec st a1 a2 a3 a4 (ok w.execs)] })

/-- The `for _, r := range data` loop of `flush`. -/
def flushLoop (ok : Nat → Bool) (st : Nat) : List row → World → World
  | [], w => w
  | r :: rs, w =>
    let res := execStmt ok st r.prefix_ r.level r.text r.time w
    let w1 := if res.1 then res.2
              else emit [.println "[logger][flush] log insert failed: "] res.2
    flushLoop ok st rs w1

/-- `flush(c, data)`. A nil `stmt` panics at the first `Exec`. -/
def flush (ok : Nat → Bool) (data : Slice) (now : Nat) (w : World) : Except World World :=
  match w.stmt with
  | none => .error (emit [.panic] w)
  | some st =>
    let w1 := (execStmt ok st "logger" LogLevelPrefixInfo
                ("[logger] flushing logs: " ++ toString data.len) now w).2
    let w2 := flushLoop ok st (elems w1.heap data) w1
    .ok (emit [.println "[logger][flush] flushing logs: finish", .flushDone] w2)

/-! ## Flush scheduler -/

/-- The swap block of `flushChecker` (identical at both sites):
`mutex.Lock(); bufferCopy := buffer[0:]; buffer = buffer[:0]; mutex.Unlock()`.
Both slice expressions keep the backing array and the capacity. -/
def takeAndClear (w : World) : Slice × World :=
  let bufferCopy := w.buffer
  (bufferCopy,
   emit [.lock, .bufRead, .bufRead, .bufWrite, .unlock]
     { w with buffer := { w.buffer with len := 0 } })

/-- The `case <-cancelChan:` branch: swap, flush, wait, `conn.Close()`, `wg.Done()`,
return. `conn` is the package-level variable; `Close` on a nil `*sql.DB` panics. -/
def cancelCase (ok : Nat → Bool) (now : Nat) (w : World) : Except World World :=
  let sw := takeAndClear w
  match flush ok sw.1 now (emit [.goFlush .drain] sw.2) with
  | .error w2 => .error w2
  | .ok w2 =>
    let w3 := emit [.flushWait] w2
    match w3.conn with
    | none => .error (emit [.connClose none, .panic] w3)
    | some c => .ok { emit [.connClose (some c), .wgDone] w3 with sched := .closed }

/-- The `case <-ticker.C:` branch: `len(buffer)` is read before any lock. -/
def tickCase (ok : Nat → Bool) (now : Nat) (w : World) : Except World World :=
  let w1 := emit [.println "[logger][flushChecker] checking new logs to flush", .bufRead] w
  if w1.buffer.len > 0 then
    let sw := takeAndClear w1
    match flush ok sw.1 now (emit [.goFlush .tick] sw.2) with
    | .error w2 => .error w2
    | .ok w2 => .ok (emit [.flushWait] w2)
  else .ok w1

/-- What the `select` of `flushChecker` can receive. -/
inductive Signal
  | tick
  | cancel
deriving DecidableEq, Repr

/-- One iteration of the `for { select { ... } }` loop of `flushChecker`. Outside
the loop (not started, returned, dead) nothing is received. -/
def flushChecker (ok : Nat → Bool) (sig : Signal) (now : Nat) (w : World) : World :=
  if w.sched = .running then
    match (match sig with
           | .tick => tickCase ok now w
           | .cancel => cancelCase ok now w) with
    | .ok w1 => w1
    | .error w1 => { w1 with sched := .crashed }
  else w

/-- `cancelChan <- 1` on the unbuffered channel: received by the `select` of a
running `flushChecker`; otherwise the sender blocks for good. The result says
whether the send completed. -/
def sendCancel (ok : Nat → Bool) (now : Nat) (w : World) : Bool × World :=
  if w.sched = .running then (true, flushChecker ok .cancel now w)
  else (false, emit [.sendBlocked] w)

/-- `(o *LoggerSqlite) Close()`. -/
def Close (ok : Nat → Bool) (_o : LoggerSqlite) (now : Nat) (w : World) : World :=
  (sendCancel ok now (emit [.println "[logger] closing logger"] w)).2

/-- `ctxListener` at `<-ctx.Done()`: `cancelChan <- 1`, then `wg.Done()` and return.
The listener fires once. When the `select` of a running `flushChecker` receives the
send, the listener goes on to `wg.Done()` whatever the receiver does next (its two
remaining statements are placed before the receiver's branch); when nothing receives,
the send never completes and `wg.Done()` is not reached. -/
def ctxListener (ok : Nat → Bool) (now : Nat) (w : World) : World :=
  if w.bridge then
    if w.sched = .running then
      flushChecker ok .cancel now (emit [.wgDone] { w with bridge := false })
    else emit [.sendBlocked] { w with bridge := false }
  else w

end Gogee

namespace Gogee

/-! ## Scenarios: sequences of calls and of signals -/

/-- Which severity method of the facade is called. -/
inductive Method
  | Info
  | Error
  | Fatal
deriving DecidableEq, Repr

/-- The level string each method passes to `insert`. -/
def Method.level : Method → String
  | .Info => LogLevelPrefixInfo
  | .Error => LogLevelPrefixWarn
  | .Fatal => LogLevelPrefixFatal

/-- One severity call: the facade, the method, the text, the clock reading. -/
structure Call where
  facade : LoggerSqlite
  method : Method
  text : String
  now : Nat
deriving DecidableEq, Repr

/-- The record the call is expected to append. -/
def Call.record (c : Call) : row :=
  { prefix_ := c.facade.prefix_, level := c.method.level, text := c.text, time := c.now }

/-- Dispatch of a call to the method of the source. -/
def Call.run (slack : Nat → Nat) (c : Call) (w : World) : World :=
  match c.method with
  | .Info => Info slack c.facade c.text c.now w
  | .Error => Error slack c.facade c.text c.now w
  | .Fatal => Fatal slack c.facade c.text c.now w

/-- The calls made one after the other. -/
def runCalls (slack : Nat → Nat) : List Call → World → World
  | [], w => w
  | c :: cs, w => runCalls slack cs (c.run slack w)

/-- Anything that can happen to the logger after construction. -/
inductive Action
  | call (c : Call)
  | tick (now : Nat)
  | close (o : LoggerSqlite) (now : Nat)
  | ctxDone (now : Nat)
deriving DecidableEq, Repr

def Action.run (slack : Nat → Nat) (ok : Nat → Bool) (a : Action) (w : World) : World :=
  match a with
  | .call c => c.run slack w
  | .tick now => flushChecker ok .tick now w
  | .close o now => Close ok o now w
  | .ctxDone now => ctxListener ok now w

/-- The actions one after the other; a process dead in a panic performs no further
action. -/
def runActions (slack : Nat → Nat) (ok : Nat → Bool) : List Action → World → World
  | [], w => w
  | a :: as, w =>
    if w.sched = .crashed then w else runActions slack ok as (a.run slack ok w)

/-- The `Exec` calls of a trace, in order: statement, the four bound values, outcome. -/
def execsOf (es : List Event) : List (Nat × String × String × String × Nat × Bool) :=
  es.filterMap (fun e =>
    match e with
    | .exec st a1 a2 a3 a4 b => some (st, a1, a2, a3, a4, b)
    | _ => none)

/-- The rows the store accepted: the bound values of the successful `Exec` calls. -/
def persisted (es : List Event) : List row :=
  (execsOf es).filterMap (fun e =>
    if e.2.2.2.2.2 then some { prefix_ := e.2.1, level := e.2.2.1, text := e.2.2.2.1,
                               time := e.2.2.2.2.1 } else none)

/-- Number of occurrences of an event. -/
def countEv (e : Event) (es : List Event) : Nat := es.count e

/-- Number of `conn.Close()` calls, on any handle. -/
def closeCalls (es : List Event) : Nat :=
  es.countP (fun e =>
    match e with
    | .connClose _ => true
    | _ => false)

/-- Lock discipline of a trace: `held` says whether the mutex is held on entry;
every buffer access must happen while it is held. -/
def lockDisciplined : Bool → List Event → Bool
  | _, [] => true
  | _, .lock :: es => lockDisciplined true es
  | _, .unlock :: es => lockDisciplined false es
  | held, .bufRead :: es => held && lockDisciplined held es
  | held, .bufWrite :: es => held && lockDisciplined held es
  | held, _ :: es => lockDisciplined held es

/-- A store that accepts everything. -/
def allOk : Nat → Bool := fun _ => true

/-- A driver on which every operation succeeds: connection 7, statement 9. -/
def goodDriver : Driver :=
  { sqlOpen := fun _ => .ok 7, ping := fun _ => .ok (), createTable := fun _ => .ok (),
    prepare := fun _ => .ok 9 }

/-- Growth policy: no spare cells. -/
def noSlack : Nat → Nat := fun _ => 0

/-- The world right after `NewLoggerSqlite` on `goodDriver`. -/
def startWorld : World :=
  { conn := none, stmt := some 9, heap := [], buffer := nilSlice, flushTimeout := 5,
    execs := 0, sched := .running, bridge := true, trace := [] }

/-- A store that rejects exactly the `Exec` number 2 of the process. -/
def failSecondRecord : Nat → Bool := fun k => k != 2

/-- The world after three `Info` calls on the fresh logger. -/
def threeRows : World :=
  runCalls noSlack [⟨⟨"a"⟩, .Info, "one", 1⟩, ⟨⟨"b"⟩, .Info, "two", 2⟩, ⟨⟨"c"⟩, .Info, "three", 3⟩]
    startWorld

/-- The fresh logger after `WithPrefix("svc").Info("started")` at time 100. -/
def oneRow : World := Info noSlack (WithPrefix ⟨""⟩ "svc" startWorld).1 "started" 100 startWorld

/-- Number of drain flushes spawned so far. -/
def drainFlushes (w : World) : Nat := countEv (.goFlush .drain) w.trace

/-- The shutdown invariant: nothing drained or closed while running, and at most one
drain flush and one `conn.Close()` ever. -/
def ShutdownInv (w : World) : Prop :=
  (w.sched = .running → drainFlushes w = 0 ∧ closeCalls w.trace = 0)
    ∧ drainFlushes w ≤ 1 ∧ closeCalls w.trace ≤ 1

/-- What every world reachable from a constructed logger satisfies: the handles are
the ones `NewLoggerSqlite` left and the buffer header is well formed. -/
def Stable (w0 w : World) : Prop :=
  w.conn = w0.conn ∧ w.stmt = w0.stmt ∧ SliceOK w.heap w.buffer

/-- The scheduler is in its loop or dead in a panic. -/
def Live (w : World) : Prop := w.sched = .running ∨ w.sched = .crashed

/-- The events of the `range` loop of `flush` from `Exec` number `k` on. -/
def loopEvents (ok : Nat → Bool) (st : Nat) : Nat → List row → List Event
  | _, [] => []
  | k, r :: rs =>
    (.exec st r.prefix_ r.level r.text r.time (ok k) ::
      (if ok k then [] else [.println "[logger][flush] log insert failed: "]))
    ++ loopEvents ok st (k + 1) rs

/-- The events of one `flush` of the batch `rows` (of length `n`) at time `now`,
starting at `Exec` number `k`. -/
def flushEvents (ok : Nat → Bool) (st : Nat) (k n now : Nat) (rows : List row) : List Event :=
  [.exec st "logger" LogLevelPrefixInfo ("[logger] flushing logs: " ++ toString n) now (ok k)]
  ++ loopEvents ok st (k + 1) rows
  ++ [.println "[logger][flush] flushing logs: finish", .flushDone]

/-- The events of a swap followed by a flush spawned at `site`, up to the wait. -/
def swapFlushEvents (ok : Nat → Bool) (st : Nat) (site : Site) (now : Nat) (w : World) :
    List Event :=
  [.lock, .bufRead, .bufRead, .bufWrite, .unlock, .goFlush site]
    ++ flushEvents ok st w.execs w.buffer.len now (elems w.heap w.buffer)
    ++ [.flushWait]

end Gogee

namespace Gogee

/-! ## Slices and `append` -/

theorem elems_length (h : Heap) (s : Slice) : (elems h s).length = s.len := by
  simp [elems]

theorem elems_len_zero (h : Heap) (s : Slice) (hz : s.len = 0) : elems h s = [] := by
  simp [elems, hz]

theorem goAppend_len (slack : Nat → Nat) (h : Heap) (s : Slice) (x : row) :
    (goAppend slack h s x).2.len = s.len + 1 := by
  unfold goAppend; split <;> rfl

theorem ptr_lt_of_room (h : Heap) (s : Slice) (hok : SliceOK h s) (hlt : s.len < s.cap) :
    s.ptr < h.length := by
  by_contra hge
  have hnil : arrayOf h s = [] := by
    unfold arrayOf
    rw [List.getD_eq_getElem?_getD, List.getElem?_eq_none (by omega)]
    rfl
  have := hok.2
  rw [hnil] at this
  simp at this
  omega

theorem elems_of_array (h : Heap) (s : Slice) (l rest : List row)
    (harr : arrayOf h s = l ++ rest) (hl : l.length = s.len) : elems h s = l := by
  apply List.ext_getElem
  · simp [elems, hl]
  · intro i h1 h2
    simp only [elems, harr, List.getElem_map, List.getElem_range]
    rw [List.getD_eq_getElem?_getD, List.getElem?_append_left h2, List.getElem?_eq_getElem h2]
    rfl

theorem goAppend_elems (slack : Nat → Nat) (h : Heap) (s : Slice) (x : row)
    (hok : SliceOK h s) :
    elems (goAppend slack h s x).1 (goAppend slack h s x).2 = elems h s ++ [x] := by
  unfold goAppend
  split
  · rename_i hlt
    have hp := ptr_lt_of_room h s hok hlt
    have hlen : s.len < (arrayOf h s).length := lt_of_lt_of_le hlt hok.2
    have harr : arrayOf (h.set s.ptr ((arrayOf h s).set s.len x))
        { s with len := s.len + 1 } = (arrayOf h s).set s.len x := by
      simp [arrayOf, List.getD_eq_getElem?_getD, hp]
    simp only [elems, harr, List.range_succ, List.map_append, List.map_cons, List.map_nil]
    congr 1
    · apply List.map_congr_left
      intro i hi
      have hi2 : i < s.len := List.mem_range.mp hi
      have hne : s.len ≠ i := by omega
      simp [List.getD_eq_getElem?_getD, List.getElem?_set_ne hne]
    · simp [List.getD_eq_getElem?_getD, hlen]
  · have harr : arrayOf (h ++ [elems h s ++ [x] ++ List.replicate (slack s.cap) zeroRow])
        { ptr := h.length, len := s.len + 1, cap := s.len + 1 + slack s.cap }
        = elems h s ++ [x] ++ List.replicate (slack s.cap) zeroRow := by
      simp [arrayOf, List.getD_eq_getElem?_getD]
    exact elems_of_array _ _ _ _ harr (by simp [elems])

theorem goAppend_ok (slack : Nat → Nat) (h : Heap) (s : Slice) (x : row)
    (hok : SliceOK h s) :
    SliceOK (goAppend slack h s x).1 (goAppend slack h s x).2 := by
  unfold goAppend
  split
  · rename_i hlt
    have hp := ptr_lt_of_room h s hok hlt
    have harr : arrayOf (h.set s.ptr ((arrayOf h s).set s.len x))
        { s with len := s.len + 1 } = (arrayOf h s).set s.len x := by
      simp [arrayOf, List.getD_eq_getElem?_getD, hp]
    refine ⟨?_, ?_⟩
    · show s.len + 1 ≤ s.cap
      omega
    · rw [harr]
      simpa using hok.2
  · have harr : arrayOf (h ++ [elems h s ++ [x] ++ List.replicate (slack s.cap) zeroRow])
        { ptr := h.length, len := s.len + 1, cap := s.len + 1 + slack s.cap }
        = elems h s ++ [x] ++ List.replicate (slack s.cap) zeroRow := by
      simp [arrayOf, List.getD_eq_getElem?_getD]
    refine ⟨?_, ?_⟩
    · show s.len + 1 ≤ s.len + 1 + slack s.cap
      omega
    · rw [harr]
      simp [elems]
      omega

end Gogee

namespace Gogee

/-! ## Traces -/

theorem execsOf_append (a b : List Event) : execsOf (a ++ b) = execsOf a ++ execsOf b := by
  simp [execsOf, List.filterMap_append]

theorem closeCalls_append (a b : List Event) : closeCalls (a ++ b) = closeCalls a + closeCalls b := by
  simp [closeCalls, List.countP_append]

theorem countEv_append (e : Event) (a b : List Event) :
    countEv e (a ++ b) = countEv e a + countEv e b := by
  simp [countEv, List.count_append]

theorem flushLoop_eq (ok : Nat → Bool) (st : Nat) (rows : List row) (w : World) :
    flushLoop ok st rows w =
      { w with execs := w.execs + rows.length,
               trace := w.trace ++ loopEvents ok st w.execs rows } := by
  induction rows generalizing w with
  | nil => simp [flushLoop, loopEvents]
  | cons r rs ih =>
    simp only [flushLoop, execStmt, loopEvents]
    rw [ih]
    cases hk : ok w.execs <;>
      simp [emit, List.length_cons, Nat.add_assoc, Nat.add_comm 1]

theorem execsOf_loopEvents (ok : Nat → Bool) (st : Nat) (k : Nat) (rows : List row) :
    execsOf (loopEvents ok st k rows) =
      (rows.enumFrom k).map
        (fun p => (st, p.2.prefix_, p.2.level, p.2.text, p.2.time, ok p.1)) := by
  induction rows generalizing k with
  | nil => simp [loopEvents, execsOf]
  | cons r rs ih =>
    rw [loopEvents, execsOf_append, ih]
    cases hk : ok k <;> simp [execsOf, List.enumFrom, hk]

theorem countEv_loopEvents (ok : Nat → Bool) (st : Nat) (k : Nat) (rows : List row)
    (e : Event) (hexec : ∀ s a1 a2 a3 a4 b, e ≠ .exec s a1 a2 a3 a4 b)
    (hpr : ∀ l, e ≠ .println l) :
    countEv e (loopEvents ok st k rows) = 0 := by
  induction rows generalizing k with
  | nil => simp [loopEvents, countEv]
  | cons r rs ih =>
    rw [loopEvents, countEv_append, ih]
    have h1 := hexec st r.prefix_ r.level r.text r.time (ok k)
    have h2 := hpr "[logger][flush] log insert failed: "
    cases hk : ok k <;> simp_all [countEv, List.count_cons, Ne.symm]

theorem closeCalls_loopEvents (ok : Nat → Bool) (st : Nat) (k : Nat) (rows : List row) :
    closeCalls (loopEvents ok st k rows) = 0 := by
  induction rows generalizing k with
  | nil => simp [loopEvents, closeCalls]
  | cons r rs ih =>
    rw [loopEvents, closeCalls_append, ih]
    cases hk : ok k <;> simp [closeCalls]

theorem flush_eq (ok : Nat → Bool) (st : Nat) (data : Slice) (now : Nat) (w : World)
    (hst : w.stmt = some st) :
    flush ok data now w = .ok
      { w with execs := w.execs + 1 + data.len,
               trace := w.trace ++
                 flushEvents ok st w.execs data.len now (elems w.heap data) } := by
  unfold flush
  rw [hst]
  simp only [execStmt, flushLoop_eq, emit, flushEvents, elems_length, List.append_assoc, hst]

end Gogee

namespace Gogee

/-! ## Appends -/

theorem insert_elems (slack : Nat → Nat) (o : LoggerSqlite) (level text : String) (now : Nat)
    (w : World) (hok : SliceOK w.heap w.buffer) :
    elems (insert slack o level text now w).heap (insert slack o level text now w).buffer
      = elems w.heap w.buffer
          ++ [{ prefix_ := o.prefix_, level := level, text := text, time := now }] :=
  goAppend_elems slack w.heap w.buffer _ hok

theorem insert_ok (slack : Nat → Nat) (o : LoggerSqlite) (level text : String) (now : Nat)
    (w : World) (hok : SliceOK w.heap w.buffer) :
    SliceOK (insert slack o level text now w).heap (insert slack o level text now w).buffer :=
  goAppend_ok slack w.heap w.buffer _ hok

theorem call_elems (slack : Nat → Nat) (c : Call) (w : World)
    (hok : SliceOK w.heap w.buffer) :
    elems (c.run slack w).heap (c.run slack w).buffer = elems w.heap w.buffer ++ [c.record] := by
  unfold Call.run Call.record
  cases c.method
  · exact insert_elems slack c.facade LogLevelPrefixInfo c.text c.now w hok
  · exact insert_elems slack c.facade LogLevelPrefixWarn c.text c.now w hok
  · exact insert_elems slack c.facade LogLevelPrefixFatal c.text c.now w hok

theorem call_ok (slack : Nat → Nat) (c : Call) (w : World)
    (hok : SliceOK w.heap w.buffer) :
    SliceOK (c.run slack w).heap (c.run slack w).buffer := by
  unfold Call.run
  cases c.method
  · exact insert_ok slack c.facade LogLevelPrefixInfo c.text c.now w hok
  · exact insert_ok slack c.facade LogLevelPrefixWarn c.text c.now w hok
  · exact insert_ok slack c.facade LogLevelPrefixFatal c.text c.now w hok

theorem runCalls_elems (slack : Nat → Nat) (cs : List Call) (w : World)
    (hok : SliceOK w.heap w.buffer) :
    elems (runCalls slack cs w).heap (runCalls slack cs w).buffer
        = elems w.heap w.buffer ++ cs.map Call.record
      ∧ SliceOK (runCalls slack cs w).heap (runCalls slack cs w).buffer := by
  induction cs generalizing w with
  | nil => simpa [runCalls] using hok
  | cons c cs ih =>
    have h := ih (c.run slack w) (call_ok slack c w hok)
    simp only [runCalls]
    refine ⟨?_, h.2⟩
    rw [h.1, call_elems slack c w hok]
    simp

/-! ## Claims -/

/-- C1 (append ordering). For every growth policy and every sequence of severity
calls made on a well-formed empty buffer with no swap in between, the batch taken by
the swap block of `flushChecker` reads, at swap time, as the appended records in call
order, its length is the number of calls, and the buffer is empty after the swap. -/
theorem append_ordering (slack : Nat → Nat) (cs : List Call) (w : World)
    (hok : SliceOK w.heap w.buffer) (hempty : w.buffer.len = 0) :
    elems (takeAndClear (runCalls slack cs w)).2.heap (takeAndClear (runCalls slack cs w)).1
        = cs.map Call.record
      ∧ (takeAndClear (runCalls slack cs w)).1.len = cs.length
      ∧ (takeAndClear (runCalls slack cs w)).2.buffer.len = 0
      ∧ elems (takeAndClear (runCalls slack cs w)).2.heap
          (takeAndClear (runCalls slack cs w)).2.buffer = [] := by
  have h := (runCalls_elems slack cs w hok).1
  rw [elems_len_zero w.heap w.buffer hempty, List.nil_append] at h
  have hbatch : elems (takeAndClear (runCalls slack cs w)).2.heap
      (takeAndClear (runCalls slack cs w)).1 = cs.map Call.record := h
  refine ⟨hbatch, ?_, rfl, elems_len_zero _ _ rfl⟩
  have hl := congrArg List.length hbatch
  rw [elems_length, List.length_map] at hl
  exact hl

/-- C1 at a concrete input: three calls (Info, Error, Fatal) on the nil buffer. -/
theorem append_ordering_witness :
    SliceOK startWorld.heap startWorld.buffer ∧ startWorld.buffer.len = 0
    ∧ elems
        (takeAndClear (runCalls noSlack
          [⟨⟨"svc"⟩, .Info, "a", 1⟩, ⟨⟨"svc"⟩, .Error, "b", 2⟩, ⟨⟨"db"⟩, .Fatal, "c", 3⟩]
          startWorld)).2.heap
        (takeAndClear (runCalls noSlack
          [⟨⟨"svc"⟩, .Info, "a", 1⟩, ⟨⟨"svc"⟩, .Error, "b", 2⟩, ⟨⟨"db"⟩, .Fatal, "c", 3⟩]
          startWorld)).1
      = [⟨"svc", "[info]", "a", 1⟩, ⟨"svc", "[warn]", "b", 2⟩, ⟨"db", "[fatal]", "c", 3⟩] :=
  ⟨by decide, rfl,
   (append_ordering noSlack
      [⟨⟨"svc"⟩, .Info, "a", 1⟩, ⟨⟨"svc"⟩, .Error, "b", 2⟩, ⟨⟨"db"⟩, .Fatal, "c", 3⟩]
      startWorld (by decide) rfl).1⟩

/-- C9 (record stamping). `WithPrefix(p)` returns a facade with prefix `p` and leaves
the package variables as they were; `Info`, `Error`, `Fatal` on that facade each append
exactly one record at the tail of the shared buffer, the earlier records unchanged,
with prefix `p`, the text given, the clock reading of the call, and level `[info]`,
`[warn]`, `[fatal]` respectively. -/
theorem record_stamping (slack : Nat → Nat) (f : LoggerSqlite) (p t : String) (now : Nat)
    (w : World) (hok : SliceOK w.heap w.buffer) :
    (WithPrefix f p w).2 = w
      ∧ (WithPrefix f p w).1.prefix_ = p
      ∧ elems (Info slack (WithPrefix f p w).1 t now w).heap
            (Info slack (WithPrefix f p w).1 t now w).buffer
          = elems w.heap w.buffer ++ [⟨p, "[info]", t, now⟩]
      ∧ elems (Error slack (WithPrefix f p w).1 t now w).heap
            (Error slack (WithPrefix f p w).1 t now w).buffer
          = elems w.heap w.buffer ++ [⟨p, "[warn]", t, now⟩]
      ∧ elems (Fatal slack (WithPrefix f p w).1 t now w).heap
            (Fatal slack (WithPrefix f p w).1 t now w).buffer
          = elems w.heap w.buffer ++ [⟨p, "[fatal]", t, now⟩]
      ∧ (Info slack (WithPrefix f p w).1 t now w).buffer.len = w.buffer.len + 1
      ∧ (Error slack (WithPrefix f p w).1 t now w).buffer.len = w.buffer.len + 1
      ∧ (Fatal slack (WithPrefix f p w).1 t now w).buffer.len = w.buffer.len + 1 :=
  ⟨rfl, rfl,
   insert_elems slack ⟨p⟩ LogLevelPrefixInfo t now w hok,
   insert_elems slack ⟨p⟩ LogLevelPrefixWarn t now w hok,
   insert_elems slack ⟨p⟩ LogLevelPrefixFatal t now w hok,
   goAppend_len slack w.heap w.buffer _,
   goAppend_len slack w.heap w.buffer _,
   goAppend_len slack w.heap w.buffer _⟩

/-- C9 at a concrete input: `WithPrefix("svc")` then `Error("disk")` at time 42 on a
buffer that already holds one record. -/
theorem record_stamping_witness :
    SliceOK (Info noSlack ⟨""⟩ "up" 1 startWorld).heap (Info noSlack ⟨""⟩ "up" 1 startWorld).buffer
    ∧ elems
        (Error noSlack (WithPrefix ⟨""⟩ "svc" (Info noSlack ⟨""⟩ "up" 1 startWorld)).1 "disk" 42
          (Info noSlack ⟨""⟩ "up" 1 startWorld)).heap
        (Error noSlack (WithPrefix ⟨""⟩ "svc" (Info noSlack ⟨""⟩ "up" 1 startWorld)).1 "disk" 42
          (Info noSlack ⟨""⟩ "up" 1 startWorld)).buffer
      = elems (Info noSlack ⟨""⟩ "up" 1 startWorld).heap
          (Info noSlack ⟨""⟩ "up" 1 startWorld).buffer ++ [⟨"svc", "[warn]", "disk", 42⟩] :=
  ⟨by decide,
   (record_stamping noSlack ⟨""⟩ "svc" "disk" 42 (Info noSlack ⟨""⟩ "up" 1 startWorld)
      (by decide)).2.2.2.1⟩

end Gogee

namespace Gogee

/-! ## Flush -/

theorem execsOf_flushEvents (ok : Nat → Bool) (st k n now : Nat) (rows : List row) :
    execsOf (flushEvents ok st k n now rows) =
      (st, "logger", "[info]", "[logger] flushing logs: " ++ toString n, now, ok k) ::
        (rows.enumFrom (k + 1)).map
          (fun p => (st, p.2.prefix_, p.2.level, p.2.text, p.2.time, ok p.1)) := by
  unfold flushEvents
  rw [execsOf_append, execsOf_append, execsOf_loopEvents]
  simp [execsOf, LogLevelPrefixInfo]

theorem countEv_flushEvents_done (ok : Nat → Bool) (st k n now : Nat) (rows : List row) :
    countEv .flushDone (flushEvents ok st k n now rows) = 1 := by
  unfold flushEvents
  rw [countEv_append, countEv_append,
    countEv_loopEvents ok st (k + 1) rows .flushDone (by simp) (by simp)]
  simp [countEv]

theorem map_enumFrom_snd (f : row → α) (k : Nat) (rows : List row) :
    (rows.enumFrom k).map (fun p => f p.2) = rows.map f := by
  induction rows generalizing k with
  | nil => rfl
  | cons r rs ih => simp [List.enumFrom, ih]

/-- C3 (flush write order). On a prepared statement `st`, `flush` of a batch of length
`N` returns, and issues exactly `N + 1` `Exec` calls on `st`: first the bookkeeping
insert `("logger", "[info]", "[logger] flushing logs: N", now)` bound to the flush
time, then one insert per batch record in batch order binding
`(prefix, level, text, time)` of the record, the time being the record's own field. -/
theorem flush_write_order (ok : Nat → Bool) (st : Nat) (data : Slice) (now : Nat) (w : World)
    (hst : w.stmt = some st) :
    ∃ w1 evs, flush ok data now w = .ok w1 ∧ w1.trace = w.trace ++ evs
      ∧ (execsOf evs).length = data.len + 1
      ∧ (execsOf evs).map (fun e => (e.1, e.2.1, e.2.2.1, e.2.2.2.1, e.2.2.2.2.1))
          = (st, "logger", "[info]", "[logger] flushing logs: " ++ toString data.len, now) ::
              (elems w.heap data).map (fun r => (st, r.prefix_, r.level, r.text, r.time)) := by
  refine ⟨_, _, flush_eq ok st data now w hst, rfl, ?_, ?_⟩
  · rw [execsOf_flushEvents]
    simp [elems_length]
  · rw [execsOf_flushEvents]
    simp only [List.map_cons, List.map_map]
    congr 1
    exact map_enumFrom_snd (fun r => (st, r.prefix_, r.level, r.text, r.time)) _ _

/-- C3 at a concrete input: two records captured at times 100 and 150, flushed at 200. -/
theorem flush_write_order_witness :
    (runCalls noSlack [⟨⟨"svc"⟩, .Info, "started", 100⟩, ⟨⟨"svc"⟩, .Error, "slow", 150⟩]
        startWorld).stmt = some 9
    ∧ ∃ w1 evs,
        flush allOk
          (runCalls noSlack [⟨⟨"svc"⟩, .Info, "started", 100⟩, ⟨⟨"svc"⟩, .Error, "slow", 150⟩]
            startWorld).buffer 200
          (runCalls noSlack [⟨⟨"svc"⟩, .Info, "started", 100⟩, ⟨⟨"svc"⟩, .Error, "slow", 150⟩]
            startWorld) = .ok w1
        ∧ w1.trace =
            (runCalls noSlack [⟨⟨"svc"⟩, .Info, "started", 100⟩, ⟨⟨"svc"⟩, .Error, "slow", 150⟩]
              startWorld).trace ++ evs
        ∧ (execsOf evs).length = 2 + 1
        ∧ (execsOf evs).map (fun e => (e.1, e.2.1, e.2.2.1, e.2.2.2.1, e.2.2.2.2.1))
            = [(9, "logger", "[info]", "[logger] flushing logs: 2", 200),
               (9, "svc", "[info]", "started", 100), (9, "svc", "[warn]", "slow", 150)] :=
  ⟨rfl,
   flush_write_order allOk 9
     (runCalls noSlack [⟨⟨"svc"⟩, .Info, "started", 100⟩, ⟨⟨"svc"⟩, .Error, "slow", 150⟩]
        startWorld).buffer 200
     (runCalls noSlack [⟨⟨"svc"⟩, .Info, "started", 100⟩, ⟨⟨"svc"⟩, .Error, "slow", 150⟩]
        startWorld) rfl⟩

end Gogee

namespace Gogee

theorem execsOf_flushEvents_enum (ok : Nat → Bool) (st k n now : Nat) (rows : List row) :
    execsOf (flushEvents ok st k n now rows) =
      (((⟨"logger", "[info]", "[logger] flushing logs: " ++ toString n, now⟩ : row) ::
          rows).enumFrom k).map
        (fun p => (st, p.2.prefix_, p.2.level, p.2.text, p.2.time, ok p.1)) := by
  rw [execsOf_flushEvents]
  simp [List.enumFrom]

theorem persisted_flushEvents (ok : Nat → Bool) (st k n now : Nat) (rows : List row) :
    persisted (flushEvents ok st k n now rows) =
      (((⟨"logger", "[info]", "[logger] flushing logs: " ++ toString n, now⟩ : row) ::
          rows).enumFrom k).filterMap (fun p => if ok p.1 then some p.2 else none) := by
  unfold persisted
  rw [execsOf_flushEvents_enum, List.filterMap_map]
  rfl

theorem getLast_flushEvents (ok : Nat → Bool) (st k n now : Nat) (rows : List row) :
    (flushEvents ok st k n now rows).getLast? = some .flushDone := by
  have h : flushEvents ok st k n now rows =
      ([.exec st "logger" LogLevelPrefixInfo ("[logger] flushing logs: " ++ toString n) now (ok k)]
        ++ loopEvents ok st (k + 1) rows
        ++ [.println "[logger][flush] flushing logs: finish"]) ++ [.flushDone] := by
    simp [flushEvents]
  rw [h, List.getLast?_append]
  rfl

/-- C4 (per-record failure isolation). Whatever `Exec` calls the store rejects, `flush`
returns; its `i`-th `Exec` is the insert of the `i`-th item of bookkeeping record
followed by the batch, each item once and in order (no abort, no retry); the store
holds exactly the items whose insert it accepted; and completion is signalled once,
as the last event. -/
theorem failure_isolation (ok : Nat → Bool) (st : Nat) (data : Slice) (now : Nat) (w : World)
    (hst : w.stmt = some st) :
    ∃ w1 evs, flush ok data now w = .ok w1 ∧ w1.trace = w.trace ++ evs
      ∧ execsOf evs =
          (((⟨"logger", "[info]", "[logger] flushing logs: " ++ toString data.len, now⟩ : row)
              :: elems w.heap data).enumFrom w.execs).map
            (fun p => (st, p.2.prefix_, p.2.level, p.2.text, p.2.time, ok p.1))
      ∧ persisted evs =
          (((⟨"logger", "[info]", "[logger] flushing logs: " ++ toString data.len, now⟩ : row)
              :: elems w.heap data).enumFrom w.execs).filterMap
            (fun p => if ok p.1 then some p.2 else none)
      ∧ countEv .flushDone evs = 1
      ∧ evs.getLast? = some .flushDone :=
  ⟨_, _, flush_eq ok st data now w hst, rfl,
   execsOf_flushEvents_enum ok st w.execs data.len now _,
   persisted_flushEvents ok st w.execs data.len now _,
   countEv_flushEvents_done ok st w.execs data.len now _,
   getLast_flushEvents ok st w.execs data.len now _⟩

/-- C4 at the input of the specification: a batch of 3 where the insert of the 2nd
record fails; the 1st and the 3rd are persisted and the flush completes. -/
theorem failure_isolation_witness :
    threeRows.stmt = some 9
    ∧ ∃ w1 evs, flush failSecondRecord threeRows.buffer 50 threeRows = .ok w1
        ∧ w1.trace = threeRows.trace ++ evs
        ∧ execsOf evs =
            [(9, "logger", "[info]", "[logger] flushing logs: 3", 50, true),
             (9, "a", "[info]", "one", 1, true), (9, "b", "[info]", "two", 2, false),
             (9, "c", "[info]", "three", 3, true)]
        ∧ persisted evs =
            [⟨"logger", "[info]", "[logger] flushing logs: 3", 50⟩,
             ⟨"a", "[info]", "one", 1⟩, ⟨"c", "[info]", "three", 3⟩]
        ∧ countEv .flushDone evs = 1
        ∧ evs.getLast? = some .flushDone :=
  ⟨rfl, failure_isolation failSecondRecord 9 threeRows.buffer 50 threeRows rfl⟩

end Gogee

namespace Gogee

/-! ## Scheduler -/

theorem countEv_flushEvents (ok : Nat → Bool) (st k n now : Nat) (rows : List row)
    (e : Event) (hexec : ∀ s a1 a2 a3 a4 b, e ≠ .exec s a1 a2 a3 a4 b)
    (hpr : ∀ l, e ≠ .println l) (hdone : e ≠ .flushDone) :
    countEv e (flushEvents ok st k n now rows) = 0 := by
  unfold flushEvents
  rw [countEv_append, countEv_append, countEv_loopEvents ok st (k + 1) rows e hexec hpr]
  have h1 := hexec st "logger" LogLevelPrefixInfo ("[logger] flushing logs: " ++ toString n)
    now (ok k)
  have h2 := hpr "[logger][flush] flushing logs: finish"
  simp [countEv, List.count_cons, Ne.symm h1, Ne.symm h2, Ne.symm hdone]

theorem closeCalls_flushEvents (ok : Nat → Bool) (st k n now : Nat) (rows : List row) :
    closeCalls (flushEvents ok st k n now rows) = 0 := by
  unfold flushEvents
  rw [closeCalls_append, closeCalls_append, closeCalls_loopEvents]
  simp [closeCalls]

theorem tickCase_empty (ok : Nat → Bool) (now : Nat) (w : World) (hz : w.buffer.len = 0) :
    tickCase ok now w =
      .ok (emit [.println "[logger][flushChecker] checking new logs to flush", .bufRead] w) := by
  simp [tickCase, emit, hz]

theorem tickCase_nonempty (ok : Nat → Bool) (st now : Nat) (w : World)
    (hpos : 0 < w.buffer.len) (hst : w.stmt = some st) :
    tickCase ok now w = .ok
      { w with buffer := { w.buffer with len := 0 },
               execs := w.execs + 1 + w.buffer.len,
               trace := w.trace ++
                 ([.println "[logger][flushChecker] checking new logs to flush", .bufRead]
                   ++ swapFlushEvents ok st .tick now w) } := by
  have hpos2 : (emit [.println "[logger][flushChecker] checking new logs to flush", .bufRead]
      w).buffer.len > 0 := hpos
  simp only [tickCase, if_pos hpos2]
  rw [flush_eq ok st _ now _ (by exact hst)]
  simp [takeAndClear, emit, swapFlushEvents, List.append_assoc]

theorem cancelCase_nil (ok : Nat → Bool) (st now : Nat) (w : World)
    (hst : w.stmt = some st) (hconn : w.conn = none) :
    cancelCase ok now w = .error
      { w with buffer := { w.buffer with len := 0 },
               execs := w.execs + 1 + w.buffer.len,
               trace := w.trace ++
                 (swapFlushEvents ok st .drain now w ++ [.connClose none, .panic]) } := by
  simp only [cancelCase]
  rw [flush_eq ok st _ now _ (by exact hst)]
  simp [takeAndClear, emit, swapFlushEvents, List.append_assoc, hconn]

theorem cancelCase_conn (ok : Nat → Bool) (st c now : Nat) (w : World)
    (hst : w.stmt = some st) (hconn : w.conn = some c) :
    cancelCase ok now w = .ok
      { w with buffer := { w.buffer with len := 0 },
               execs := w.execs + 1 + w.buffer.len,
               sched := .closed,
               trace := w.trace ++
                 (swapFlushEvents ok st .drain now w ++ [.connClose (some c), .wgDone]) } := by
  simp only [cancelCase]
  rw [flush_eq ok st _ now _ (by exact hst)]
  simp [takeAndClear, emit, swapFlushEvents, List.append_assoc, hconn]

theorem execsOf_swapFlushEvents (ok : Nat → Bool) (st : Nat) (site : Site) (now : Nat)
    (w : World) :
    execsOf (swapFlushEvents ok st site now w) =
      (st, "logger", "[info]", "[logger] flushing logs: " ++ toString w.buffer.len, now,
          ok w.execs) ::
        ((elems w.heap w.buffer).enumFrom (w.execs + 1)).map
          (fun p => (st, p.2.prefix_, p.2.level, p.2.text, p.2.time, ok p.1)) := by
  unfold swapFlushEvents
  rw [execsOf_append, execsOf_append, execsOf_flushEvents]
  simp [execsOf]

theorem countEv_swapFlushEvents_go (ok : Nat → Bool) (st : Nat) (site s : Site) (now : Nat)
    (w : World) :
    countEv (.goFlush s) (swapFlushEvents ok st site now w) = if site = s then 1 else 0 := by
  unfold swapFlushEvents
  rw [countEv_append, countEv_append,
    countEv_flushEvents ok st _ _ now _ (.goFlush s) (by simp) (by simp) (by simp)]
  by_cases h : site = s <;> simp [countEv, List.count_cons, h]

theorem countEv_swapFlushEvents_done (ok : Nat → Bool) (st : Nat) (site : Site) (now : Nat)
    (w : World) :
    countEv .flushDone (swapFlushEvents ok st site now w) = 1 := by
  unfold swapFlushEvents
  rw [countEv_append, countEv_append, countEv_flushEvents_done]
  simp [countEv, List.count_cons]

theorem closeCalls_swapFlushEvents (ok : Nat → Bool) (st : Nat) (site : Site) (now : Nat)
    (w : World) :
    closeCalls (swapFlushEvents ok st site now w) = 0 := by
  unfold swapFlushEvents
  rw [closeCalls_append, closeCalls_append, closeCalls_flushEvents]
  simp [closeCalls]

end Gogee

namespace Gogee

/-- C8 (tick). In a running scheduler, a tick on an empty buffer only echoes the
check line and reads the length: no flush is spawned, no `Exec` is issued, buffer,
heap and scheduler state are unchanged. A tick on a non-empty buffer (with a prepared
statement) does one swap and one flush of the whole buffer, the bookkeeping insert
first, leaves the buffer empty, closes nothing and stays running. -/
theorem tick_behaviour (ok : Nat → Bool) (now : Nat) (w : World) (hrun : w.sched = .running) :
    (w.buffer.len = 0 →
        flushChecker ok .tick now w =
            emit [.println "[logger][flushChecker] checking new logs to flush", .bufRead] w
          ∧ (flushChecker ok .tick now w).buffer = w.buffer
          ∧ (flushChecker ok .tick now w).heap = w.heap
          ∧ (flushChecker ok .tick now w).sched = .running
          ∧ (flushChecker ok .tick now w).execs = w.execs
          ∧ execsOf (flushChecker ok .tick now w).trace = execsOf w.trace
          ∧ ∀ s, countEv (.goFlush s) (flushChecker ok .tick now w).trace
                  = countEv (.goFlush s) w.trace)
    ∧ (0 < w.buffer.len → ∀ st, w.stmt = some st →
        ∃ evs, (flushChecker ok .tick now w).trace = w.trace ++ evs
          ∧ countEv .lock evs = 1
          ∧ countEv (.goFlush .tick) evs = 1
          ∧ countEv (.goFlush .drain) evs = 0
          ∧ countEv .flushDone evs = 1
          ∧ (execsOf evs).map (fun e => (e.1, e.2.1, e.2.2.1, e.2.2.2.1, e.2.2.2.2.1))
              = (st, "logger", "[info]", "[logger] flushing logs: " ++ toString w.buffer.len,
                  now) ::
                (elems w.heap w.buffer).map (fun r => (st, r.prefix_, r.level, r.text, r.time))
          ∧ closeCalls evs = 0
          ∧ (flushChecker ok .tick now w).buffer.len = 0
          ∧ (flushChecker ok .tick now w).sched = .running) := by
  constructor
  · intro hz
    have h : flushChecker ok .tick now w =
        emit [.println "[logger][flushChecker] checking new logs to flush", .bufRead] w := by
      simp only [flushChecker, if_pos hrun, tickCase_empty ok now w hz]
    rw [h]
    refine ⟨rfl, rfl, rfl, hrun, rfl, ?_, ?_⟩
    · simp [emit, execsOf_append, execsOf]
    · intro s
      simp [emit, countEv_append, countEv, List.count_cons]
  · intro hpos st hst
    have h : flushChecker ok .tick now w =
        { w with buffer := { w.buffer with len := 0 },
                 execs := w.execs + 1 + w.buffer.len,
                 trace := w.trace ++
                   ([.println "[logger][flushChecker] checking new logs to flush", .bufRead]
                     ++ swapFlushEvents ok st .tick now w) } := by
      simp only [flushChecker, if_pos hrun, tickCase_nonempty ok st now w hpos hst]
    rw [h]
    refine ⟨_, rfl, ?_, ?_, ?_, ?_, ?_, ?_, rfl, hrun⟩
    · rw [countEv_append]
      unfold swapFlushEvents
      rw [countEv_append, countEv_append,
        countEv_flushEvents ok st _ _ now _ .lock (by simp) (by simp) (by simp)]
      simp [countEv, List.count_cons]
    · rw [countEv_append, countEv_swapFlushEvents_go]
      simp [countEv, List.count_cons]
    · rw [countEv_append, countEv_swapFlushEvents_go]
      simp [countEv, List.count_cons]
    · rw [countEv_append, countEv_swapFlushEvents_done]
      simp [countEv, List.count_cons]
    · rw [execsOf_append, execsOf_swapFlushEvents]
      simp only [execsOf, List.filterMap_cons, List.filterMap_nil, List.nil_append,
        List.map_cons, List.map_map]
      congr 1
      exact map_enumFrom_snd (fun r => (st, r.prefix_, r.level, r.text, r.time)) _ _
    · rw [closeCalls_append, closeCalls_swapFlushEvents]
      simp [closeCalls]

/-- C8 at concrete inputs: a tick on the fresh logger, and the end-to-end scenario of
the specification (one record appended, then one tick). -/
theorem tick_behaviour_witness :
    startWorld.sched = .running
    ∧ execsOf (flushChecker allOk .tick 200 startWorld).trace = execsOf startWorld.trace
    ∧ (flushChecker allOk .tick 200 startWorld).buffer = startWorld.buffer
    ∧ ∃ evs, (flushChecker allOk .tick 200 oneRow).trace = oneRow.trace ++ evs
        ∧ countEv .lock evs = 1
        ∧ countEv (.goFlush .tick) evs = 1
        ∧ countEv (.goFlush .drain) evs = 0
        ∧ countEv .flushDone evs = 1
        ∧ (execsOf evs).map (fun e => (e.1, e.2.1, e.2.2.1, e.2.2.2.1, e.2.2.2.2.1))
            = [(9, "logger", "[info]", "[logger] flushing logs: 1", 200),
               (9, "svc", "[info]", "started", 100)]
        ∧ closeCalls evs = 0
        ∧ (flushChecker allOk .tick 200 oneRow).buffer.len = 0
        ∧ (flushChecker allOk .tick 200 oneRow).sched = .running :=
  ⟨rfl,
   ((tick_behaviour allOk 200 startWorld rfl).1 rfl).2.2.2.2.2.1,
   ((tick_behaviour allOk 200 startWorld rfl).1 rfl).2.1,
   (tick_behaviour allOk 200 oneRow rfl).2 (by decide) 9 rfl⟩

end Gogee

namespace Gogee

/-! ## Shutdown -/

theorem flush_nil (ok : Nat → Bool) (data : Slice) (now : Nat) (w : World)
    (hst : w.stmt = none) : flush ok data now w = .error (emit [.panic] w) := by
  unfold flush
  rw [hst]

theorem tickCase_nostmt (ok : Nat → Bool) (now : Nat) (w : World)
    (hpos : 0 < w.buffer.len) (hst : w.stmt = none) :
    tickCase ok now w = .error
      { w with buffer := { w.buffer with len := 0 },
               trace := w.trace ++
                 [.println "[logger][flushChecker] checking new logs to flush", .bufRead,
                  .lock, .bufRead, .bufRead, .bufWrite, .unlock, .goFlush .tick, .panic] } := by
  have hpos2 : (emit [.println "[logger][flushChecker] checking new logs to flush", .bufRead]
      w).buffer.len > 0 := hpos
  simp only [tickCase, if_pos hpos2]
  rw [flush_nil ok _ now _ (by exact hst)]
  simp [takeAndClear, emit]

theorem cancelCase_nostmt (ok : Nat → Bool) (now : Nat) (w : World) (hst : w.stmt = none) :
    cancelCase ok now w = .error
      { w with buffer := { w.buffer with len := 0 },
               trace := w.trace ++
                 [.lock, .bufRead, .bufRead, .bufWrite, .unlock, .goFlush .drain, .panic] } := by
  simp only [cancelCase]
  rw [flush_nil ok _ now _ (by exact hst)]
  simp [takeAndClear, emit]

theorem stmt_cases (w : World) : w.stmt = none ∨ ∃ st, w.stmt = some st := by
  cases w.stmt <;> simp

theorem conn_cases (w : World) : w.conn = none ∨ ∃ c, w.conn = some c := by
  cases w.conn <;> simp

theorem flushChecker_tick_ok (ok : Nat → Bool) (now : Nat) (w w1 : World)
    (hrun : w.sched = .running) (h : tickCase ok now w = .ok w1) :
    flushChecker ok .tick now w = w1 := by
  simp only [flushChecker, if_pos hrun, h]

theorem flushChecker_tick_error (ok : Nat → Bool) (now : Nat) (w w1 : World)
    (hrun : w.sched = .running) (h : tickCase ok now w = .error w1) :
    flushChecker ok .tick now w = { w1 with sched := .crashed } := by
  simp only [flushChecker, if_pos hrun, h]

theorem flushChecker_cancel_ok (ok : Nat → Bool) (now : Nat) (w w1 : World)
    (hrun : w.sched = .running) (h : cancelCase ok now w = .ok w1) :
    flushChecker ok .cancel now w = w1 := by
  simp only [flushChecker, if_pos hrun, h]

theorem flushChecker_cancel_error (ok : Nat → Bool) (now : Nat) (w w1 : World)
    (hrun : w.sched = .running) (h : cancelCase ok now w = .error w1) :
    flushChecker ok .cancel now w = { w1 with sched := .crashed } := by
  simp only [flushChecker, if_pos hrun, h]

/-- What one loop iteration of `flushChecker` can change, in every case. -/
theorem flushChecker_effect (ok : Nat → Bool) (sig : Signal) (now : Nat) (w : World) :
    ∃ evs, (flushChecker ok sig now w).trace = w.trace ++ evs
      ∧ (flushChecker ok sig now w).conn = w.conn
      ∧ (flushChecker ok sig now w).stmt = w.stmt
      ∧ (flushChecker ok sig now w).heap = w.heap
      ∧ (flushChecker ok sig now w).bridge = w.bridge
      ∧ countEv (.goFlush .drain) evs
          = (if w.sched = .running ∧ sig = .cancel then 1 else 0)
      ∧ closeCalls evs ≤ (if w.sched = .running ∧ sig = .cancel then 1 else 0)
      ∧ ((flushChecker ok sig now w).sched = .running → w.sched = .running ∧ sig = .tick)
      ∧ (w.sched ≠ .running → flushChecker ok sig now w = w) := by
  by_cases hrun : w.sched = .running
  · cases sig with
    | tick =>
      by_cases hz : w.buffer.len = 0
      · have h : flushChecker ok .tick now w = emit
            [.println "[logger][flushChecker] checking new logs to flush", .bufRead] w := by
          simp only [flushChecker, if_pos hrun, tickCase_empty ok now w hz]
        rw [h]
        refine ⟨_, rfl, rfl, rfl, rfl, rfl, ?_, ?_, ?_, ?_⟩
        · simp [countEv, List.count_cons]
        · simp [closeCalls]
        · intro _; exact ⟨hrun, rfl⟩
        · intro h; exact absurd hrun h
      · have hpos : 0 < w.buffer.len := Nat.pos_of_ne_zero hz
        rcases stmt_cases w with hst | ⟨st, hst⟩
        · rw [flushChecker_tick_error ok now w _ hrun (tickCase_nostmt ok now w hpos hst)]
          refine ⟨_, rfl, rfl, rfl, rfl, rfl, ?_, ?_, ?_, ?_⟩
          · simp [countEv, List.count_cons]
          · simp [closeCalls]
          · intro h; cases h
          · intro h; exact absurd hrun h
        · rw [flushChecker_tick_ok ok now w _ hrun (tickCase_nonempty ok st now w hpos hst)]
          refine ⟨_, rfl, rfl, rfl, rfl, rfl, ?_, ?_, ?_, ?_⟩
          · rw [countEv_append, countEv_swapFlushEvents_go]
            simp [countEv, List.count_cons]
          · rw [closeCalls_append, closeCalls_swapFlushEvents]
            simp [closeCalls]
          · intro _; exact ⟨hrun, rfl⟩
          · intro h; exact absurd hrun h
    | cancel =>
      rcases stmt_cases w with hst | ⟨st, hst⟩
      · rw [flushChecker_cancel_error ok now w _ hrun (cancelCase_nostmt ok now w hst)]
        refine ⟨_, rfl, rfl, rfl, rfl, rfl, ?_, ?_, ?_, ?_⟩
        · simp [countEv, List.count_cons, hrun]
        · simp [closeCalls]
        · intro h; cases h
        · intro h; exact absurd hrun h
      · rcases conn_cases w with hc | ⟨c, hc⟩
        · rw [flushChecker_cancel_error ok now w _ hrun (cancelCase_nil ok st now w hst hc)]
          refine ⟨_, rfl, rfl, rfl, rfl, rfl, ?_, ?_, ?_, ?_⟩
          · rw [countEv_append, countEv_swapFlushEvents_go]
            simp [countEv, List.count_cons, hrun]
          · rw [closeCalls_append, closeCalls_swapFlushEvents]
            simp [closeCalls, hrun]
          · intro h; cases h
          · intro h; exact absurd hrun h
        · rw [flushChecker_cancel_ok ok now w _ hrun (cancelCase_conn ok st c now w hst hc)]
          refine ⟨_, rfl, rfl, rfl, rfl, rfl, ?_, ?_, ?_, ?_⟩
          · rw [countEv_append, countEv_swapFlushEvents_go]
            simp [countEv, List.count_cons, hrun]
          · rw [closeCalls_append, closeCalls_swapFlushEvents]
            simp [closeCalls, hrun]
          · intro h; cases h
          · intro h; exact absurd hrun h
  · have h : flushChecker ok sig now w = w := by simp [flushChecker, hrun]
    rw [h]
    refine ⟨[], by simp, rfl, rfl, rfl, rfl, ?_, ?_, ?_, ?_⟩
    · simp [countEv, hrun]
    · simp [closeCalls]
    · intro h; exact absurd h hrun
    · intro _; rfl

end Gogee

namespace Gogee

theorem sendCancel_effect (ok : Nat → Bool) (now : Nat) (w : World) :
    ∃ evs, (sendCancel ok now w).2.trace = w.trace ++ evs
      ∧ countEv (.goFlush .drain) evs = (if w.sched = .running then 1 else 0)
      ∧ closeCalls evs ≤ (if w.sched = .running then 1 else 0)
      ∧ (sendCancel ok now w).2.sched ≠ .running := by
  by_cases hrun : w.sched = .running
  · obtain ⟨evs, h1, -, -, -, -, h2, h3, h4, -⟩ := flushChecker_effect ok .cancel now w
    simp only [sendCancel, if_pos hrun]
    refine ⟨evs, h1, ?_, ?_, ?_⟩
    · simpa [hrun] using h2
    · simpa [hrun] using h3
    · intro h
      have := (h4 h).2
      cases this
  · simp only [sendCancel, if_neg hrun]
    exact ⟨[.sendBlocked], rfl, by simp [countEv, List.count_cons],
      by simp [closeCalls], hrun⟩

theorem inv_of_extend (w w1 : World) (evs : List Event) (hinv : ShutdownInv w)
    (htr : w1.trace = w.trace ++ evs)
    (hd : countEv (.goFlush .drain) evs ≤ (if w.sched = .running then 1 else 0))
    (hc : closeCalls evs ≤ (if w.sched = .running then 1 else 0))
    (hs : w1.sched = .running →
      w.sched = .running ∧ countEv (.goFlush .drain) evs = 0 ∧ closeCalls evs = 0) :
    ShutdownInv w1 := by
  unfold ShutdownInv drainFlushes at *
  rw [htr, countEv_append, closeCalls_append]
  obtain ⟨h1, h2, h3⟩ := hinv
  by_cases hrun : w.sched = .running
  · have := h1 hrun
    simp only [if_pos hrun] at hd hc
    refine ⟨fun h => ?_, by omega, by omega⟩
    have := hs h
    omega
  · simp only [if_neg hrun] at hd hc
    refine ⟨fun h => absurd (hs h).1 hrun, by omega, by omega⟩

theorem call_trace (slack : Nat → Nat) (c : Call) (w : World) :
    ∃ evs, (c.run slack w).trace = w.trace ++ evs
      ∧ countEv (.goFlush .drain) evs = 0 ∧ closeCalls evs = 0
      ∧ (c.run slack w).sched = w.sched := by
  unfold Call.run
  cases c.method
  · exact ⟨[.bufRead, .bufWrite, .println (LogLevelPrefixInfo ++ c.text)],
      by simp [Info, insert, emit], by simp [countEv, List.count_cons],
      by simp [closeCalls], rfl⟩
  · exact ⟨[.bufRead, .bufWrite, .println (LogLevelPrefixWarn ++ c.text)],
      by simp [Error, insert, emit], by simp [countEv, List.count_cons],
      by simp [closeCalls], rfl⟩
  · exact ⟨[.bufRead, .bufWrite, .println (LogLevelPrefixFatal ++ c.text), .osExit 1],
      by simp [Fatal, insert, emit], by simp [countEv, List.count_cons],
      by simp [closeCalls], rfl⟩

theorem action_inv (slack : Nat → Nat) (ok : Nat → Bool) (a : Action) (w : World)
    (hinv : ShutdownInv w) : ShutdownInv (a.run slack ok w) := by
  cases a with
  | call c =>
    obtain ⟨evs, h1, h2, h3, h4⟩ := call_trace slack c w
    refine inv_of_extend w _ evs hinv h1 (by omega) (by omega) ?_
    intro h
    exact ⟨by rw [← h4]; exact h, h2, h3⟩
  | tick now =>
    obtain ⟨evs, h1, -, -, -, -, h2, h3, h4, -⟩ := flushChecker_effect ok .tick now w
    have h2z : countEv (.goFlush .drain) evs = 0 := by simpa using h2
    have h3z : closeCalls evs = 0 := by simpa using h3
    refine inv_of_extend w _ evs hinv h1 (by omega) (by omega) ?_
    intro h
    exact ⟨(h4 h).1, h2z, h3z⟩
  | close o now =>
    obtain ⟨evs, h1, h2, h3, h4⟩ :=
      sendCancel_effect ok now (emit [.println "[logger] closing logger"] w)
    have hs : (emit [.println "[logger] closing logger"] w).sched = w.sched := rfl
    rw [hs] at h2 h3
    refine inv_of_extend w _ ([.println "[logger] closing logger"] ++ evs) hinv ?_ ?_ ?_ ?_
    · show (sendCancel ok now (emit [.println "[logger] closing logger"] w)).2.trace = _
      rw [h1]
      simp [emit]
    · rw [countEv_append, h2]
      simp [countEv, List.count_cons]
    · rw [closeCalls_append]
      simpa [closeCalls] using h3
    · intro h
      exact absurd h h4
  | ctxDone now =>
    show ShutdownInv (ctxListener ok now w)
    unfold ctxListener
    by_cases hb : w.bridge = true
    · simp only [if_pos hb]
      by_cases hrun : w.sched = .running
      · simp only [if_pos hrun]
        obtain ⟨evs, h1, -, -, -, -, h2, h3, h4, -⟩ :=
          flushChecker_effect ok .cancel now (emit [.wgDone] { w with bridge := false })
        have hs : (emit [.wgDone] { w with bridge := false }).sched = w.sched := rfl
        rw [hs] at h2 h3
        refine inv_of_extend w _ ([.wgDone] ++ evs) hinv ?_ ?_ ?_ ?_
        · rw [h1]
          simp [emit]
        · rw [countEv_append, h2]
          simp [countEv, List.count_cons, hrun]
        · rw [closeCalls_append]
          simpa [closeCalls, hrun] using h3
        · intro h
          have := (h4 h).2
          cases this
      · simp only [if_neg hrun]
        refine inv_of_extend w _ [.sendBlocked] hinv rfl ?_ ?_ ?_
        · simp [countEv, List.count_cons]
        · simp [closeCalls]
        · intro h
          exact absurd h hrun
    · simp only [hb]
      exact hinv

theorem runActions_inv (slack : Nat → Nat) (ok : Nat → Bool) (as : List Action) (w : World)
    (hinv : ShutdownInv w) : ShutdownInv (runActions slack ok as w) := by
  induction as generalizing w with
  | nil => exact hinv
  | cons a as ih =>
    simp only [runActions]
    split
    · exact hinv
    · exact ih _ (action_inv slack ok a w hinv)

end Gogee

namespace Gogee

theorem close_after_closed (ok : Nat → Bool) (o : LoggerSqlite) (now : Nat) (w : World)
    (hcl : w.sched ≠ .running) :
    Close ok o now w = emit [.println "[logger] closing logger", .sendBlocked] w := by
  have h : (emit [.println "[logger] closing logger"] w).sched ≠ .running := hcl
  simp only [Close, sendCancel, if_neg h]
  simp [emit]

theorem ctxListener_after_closed (ok : Nat → Bool) (now : Nat) (w : World)
    (hcl : w.sched ≠ .running) :
    ctxListener ok now w =
      if w.bridge then emit [.sendBlocked] { w with bridge := false } else w := by
  unfold ctxListener
  by_cases hb : w.bridge = true
  · simp only [if_pos hb, if_neg hcl]
  · simp [hb]

end Gogee

namespace Gogee

/-! ## The drain and the connection handle -/

theorem getLast_swapFlush_panic (ok : Nat → Bool) (st : Nat) (now : Nat) (w : World) :
    (swapFlushEvents ok st .drain now w ++ [Event.connClose none, Event.panic]).getLast?
      = some Event.panic := by
  have h : swapFlushEvents ok st .drain now w ++ [Event.connClose none, Event.panic]
      = (swapFlushEvents ok st .drain now w ++ [Event.connClose none]) ++ [Event.panic] := by
    simp
  rw [h, List.getLast?_append]
  rfl

theorem countEv_swapFlushEvents (ok : Nat → Bool) (st : Nat) (site : Site) (now : Nat)
    (w : World) (e : Event) (hexec : ∀ s a1 a2 a3 a4 b, e ≠ .exec s a1 a2 a3 a4 b)
    (hpr : ∀ l, e ≠ .println l) (hdone : e ≠ .flushDone) :
    countEv e (swapFlushEvents ok st site now w)
      = countEv e [.lock, .bufRead, .bufRead, .bufWrite, .unlock, .goFlush site, .flushWait] := by
  unfold swapFlushEvents
  rw [countEv_append, countEv_append, countEv_flushEvents ok st _ _ now _ e hexec hpr hdone]
  simp [countEv, List.count_cons]
  omega

/-- With a connection in the package variable the drain completes: one swap, one
flush of the whole buffer, then `conn.Close()` on that connection, `wg.Done()`, and
the scheduler is Closed. -/
theorem drain_with_conn (ok : Nat → Bool) (now : Nat) (w : World) (st c : Nat)
    (hrun : w.sched = .running) (hst : w.stmt = some st) (hconn : w.conn = some c) :
    flushChecker ok .cancel now w =
      { w with buffer := { w.buffer with len := 0 },
               execs := w.execs + 1 + w.buffer.len,
               sched := .closed,
               trace := w.trace ++
                 (swapFlushEvents ok st .drain now w ++ [.connClose (some c), .wgDone]) } :=
  flushChecker_cancel_ok ok now w _ hrun (cancelCase_conn ok st c now w hst hconn)

/-- C5 (drain), evaluated on the code. In a running scheduler whose package-level
`conn` is nil (the state `NewLoggerSqlite` leaves), a shutdown signal does one swap and
one flush of the whole buffer (bookkeeping insert first), leaves the buffer empty and
waits for the completion signal; then `conn.Close()` is called on the nil handle and
panics: `wg.Done()` is never reached and the scheduler dies instead of reaching
Closed. -/
theorem drain_on_nil_conn (ok : Nat → Bool) (now : Nat) (w : World) (st : Nat)
    (hrun : w.sched = .running) (hst : w.stmt = some st) (hconn : w.conn = none) :
    ∃ pre, (flushChecker ok .cancel now w).trace
          = w.trace ++ (pre ++ [.flushWait, .connClose none, .panic])
      ∧ countEv .lock pre = 1
      ∧ countEv (.goFlush .drain) pre = 1
      ∧ countEv .flushDone pre = 1
      ∧ pre.getLast? = some .flushDone
      ∧ (execsOf pre).map (fun e => (e.1, e.2.1, e.2.2.1, e.2.2.2.1, e.2.2.2.2.1))
          = (st, "logger", "[info]", "[logger] flushing logs: " ++ toString w.buffer.len,
              now) ::
            (elems w.heap w.buffer).map (fun r => (st, r.prefix_, r.level, r.text, r.time))
      ∧ countEv .wgDone (flushChecker ok .cancel now w).trace = countEv .wgDone w.trace
      ∧ (flushChecker ok .cancel now w).buffer.len = 0
      ∧ (flushChecker ok .cancel now w).sched = .crashed := by
  rw [flushChecker_cancel_error ok now w _ hrun (cancelCase_nil ok st now w hst hconn)]
  refine ⟨[.lock, .bufRead, .bufRead, .bufWrite, .unlock, .goFlush .drain]
      ++ flushEvents ok st w.execs w.buffer.len now (elems w.heap w.buffer), ?_, ?_, ?_, ?_,
      ?_, ?_, ?_, rfl, rfl⟩
  · simp [swapFlushEvents, List.append_assoc]
  · rw [countEv_append, countEv_flushEvents ok st _ _ now _ .lock (by simp) (by simp) (by simp)]
    simp [countEv, List.count_cons]
  · rw [countEv_append,
      countEv_flushEvents ok st _ _ now _ (.goFlush .drain) (by simp) (by simp) (by simp)]
    simp [countEv, List.count_cons]
  · rw [countEv_append, countEv_flushEvents_done]
    simp [countEv, List.count_cons]
  · rw [List.getLast?_append, getLast_flushEvents]
    rfl
  · rw [execsOf_append, execsOf_flushEvents]
    simp only [execsOf, List.filterMap_cons, List.filterMap_nil, List.nil_append,
      List.map_cons, List.map_map]
    congr 1
    exact map_enumFrom_snd (fun r => (st, r.prefix_, r.level, r.text, r.time)) _ _
  · show countEv .wgDone (w.trace ++ _) = _
    rw [countEv_append, countEv_append,
      countEv_swapFlushEvents ok st .drain now w .wgDone (by simp) (by simp) (by simp)]
    simp [countEv, List.count_cons]

/-- C5 at a concrete input: the logger `NewLoggerSqlite` returns, one record appended,
then a shutdown signal. -/
theorem drain_on_nil_conn_witness :
    oneRow.sched = .running ∧ oneRow.stmt = some 9 ∧ oneRow.conn = none
    ∧ (flushChecker allOk .cancel 200 oneRow).sched = .crashed
    ∧ (flushChecker allOk .cancel 200 oneRow).trace
        = oneRow.trace ++
            [.lock, .bufRead, .bufRead, .bufWrite, .unlock, .goFlush .drain,
             .exec 9 "logger" "[info]" "[logger] flushing logs: 1" 200 true,
             .exec 9 "svc" "[info]" "started" 100 true,
             .println "[logger][flush] flushing logs: finish", .flushDone,
             .flushWait, .connClose none, .panic] :=
  ⟨rfl, rfl, rfl,
   (drain_on_nil_conn allOk 200 oneRow 9 rfl rfl rfl).elim (fun _ h => h.2.2.2.2.2.2.2.2), rfl⟩

/-- C6 (connection handle), evaluated on the code. When `sql.Open` returns the
connection `c` and `prepareStatement` the statement `s`, `NewLoggerSqlite` returns with
the package-level `stmt` set to `s` and the package-level `conn` still nil: the drain
then calls `Close` on the nil handle, never on `c`, and panics. -/
theorem conn_never_assigned (drv : Driver) (dbFilename : String) (ft c s : Nat)
    (hopen : drv.sqlOpen dbFilename = .ok c) (hprep : prepareStatement drv c = .ok s) :
    ∃ lg w, NewLoggerSqlite drv dbFilename ft initWorld = .ok (lg, w)
      ∧ w.stmt = some s ∧ w.conn = none ∧ w.sched = .running
      ∧ ∀ ok now,
          countEv (.connClose none) (flushChecker ok .cancel now w).trace = 1
            ∧ countEv (.connClose (some c)) (flushChecker ok .cancel now w).trace = 0
            ∧ (flushChecker ok .cancel now w).trace.getLast? = some .panic
            ∧ (flushChecker ok .cancel now w).sched = .crashed := by
  refine ⟨⟨""⟩, { initWorld with flushTimeout := ft, stmt := some s, sched := .running,
                                 bridge := true }, ?_, rfl, rfl, rfl, ?_⟩
  · simp [NewLoggerSqlite, hopen, hprep]
  · intro ok now
    rw [flushChecker_cancel_error ok now _ _ rfl (cancelCase_nil ok s now _ rfl rfl)]
    refine ⟨?_, ?_, ?_, rfl⟩
    · show countEv _ ([] ++ _) = 1
      rw [List.nil_append, countEv_append,
        countEv_swapFlushEvents ok s .drain now _ _ (by simp) (by simp) (by simp)]
      simp [countEv, List.count_cons]
    · show countEv _ ([] ++ _) = 0
      rw [List.nil_append, countEv_append,
        countEv_swapFlushEvents ok s .drain now _ _ (by simp) (by simp) (by simp)]
      simp [countEv, List.count_cons]
    · exact getLast_swapFlush_panic ok s now _

/-- C6 at a concrete input: the driver on which everything succeeds, connection 7. -/
theorem conn_never_assigned_witness :
    goodDriver.sqlOpen "logs.db" = .ok 7 ∧ prepareStatement goodDriver 7 = .ok 9
    ∧ ∃ lg w, NewLoggerSqlite goodDriver "logs.db" 5 initWorld = .ok (lg, w)
        ∧ w.stmt = some 9 ∧ w.conn = none ∧ w.sched = .running
        ∧ ∀ ok now,
            countEv (.connClose none) (flushChecker ok .cancel now w).trace = 1
              ∧ countEv (.connClose (some 7)) (flushChecker ok .cancel now w).trace = 0
              ∧ (flushChecker ok .cancel now w).trace.getLast? = some .panic
              ∧ (flushChecker ok .cancel now w).sched = .crashed :=
  ⟨rfl, rfl, conn_never_assigned goodDriver "logs.db" 5 7 9 rfl rfl⟩

end Gogee

namespace Gogee

/-! ## The batch and the buffer share one backing array -/

theorem ptr_lt_of_array (h : Heap) (s : Slice) (hpos : 0 < (arrayOf h s).length) :
    s.ptr < h.length := by
  by_contra hge
  have hnil : arrayOf h s = [] := by
    unfold arrayOf
    rw [List.getD_eq_getElem?_getD, List.getElem?_eq_none (by omega)]
    rfl
  rw [hnil] at hpos
  simp at hpos

/-- After a swap of a non-empty well-formed buffer, the first later append is written
in place into the array the batch still points to: the batch now starts with the new
record. -/
theorem batch_overwritten (slack : Nat → Nat) (o : LoggerSqlite) (level text : String)
    (now : Nat) (w : World) (hok : SliceOK w.heap w.buffer) (hpos : 0 < w.buffer.len) :
    (elems (insert slack o level text now (takeAndClear w).2).heap (takeAndClear w).1).head?
      = some { prefix_ := o.prefix_, level := level, text := text, time := now } := by
  have hcap : 0 < w.buffer.cap := lt_of_lt_of_le hpos hok.1
  have hlen : 0 < (arrayOf w.heap w.buffer).length := lt_of_lt_of_le hcap hok.2
  have hp : w.buffer.ptr < w.heap.length := ptr_lt_of_array w.heap w.buffer hlen
  obtain ⟨n, hn⟩ : ∃ n, w.buffer.len = n + 1 := ⟨w.buffer.len - 1, by omega⟩
  simp only [insert, takeAndClear, emit, goAppend, if_pos hcap, elems, arrayOf, hn]
  simp only [List.getD_eq_getElem?_getD, List.getElem?_set_self hp]
  simp only [arrayOf, List.getD_eq_getElem?_getD] at hlen
  simp [List.range_succ_eq_map, hlen]

/-- C2 (detached batch), evaluated on the code: one record appended, the swap, then
one later append. At swap time the batch reads as the first record; after the later
append the same batch reads as the later record: the first record is gone from it and
a record appended after the swap is in it. A flush that reads the batch then stores the
later record, which the buffer holds as well. -/
theorem batch_aliases_buffer :
    elems (takeAndClear oneRow).2.heap (takeAndClear oneRow).1
        = [⟨"svc", "[info]", "started", 100⟩]
      ∧ elems (Info noSlack ⟨"db"⟩ "late" 300 (takeAndClear oneRow).2).heap
          (takeAndClear oneRow).1
        = [⟨"db", "[info]", "late", 300⟩]
      ∧ elems (Info noSlack ⟨"db"⟩ "late" 300 (takeAndClear oneRow).2).heap
          (Info noSlack ⟨"db"⟩ "late" 300 (takeAndClear oneRow).2).buffer
        = [⟨"db", "[info]", "late", 300⟩]
      ∧ (flush allOk (takeAndClear oneRow).1 400
            (Info noSlack ⟨"db"⟩ "late" 300 (takeAndClear oneRow).2)).toOption.map
          (fun w => persisted w.trace)
        = some [⟨"logger", "[info]", "[logger] flushing logs: 1", 400⟩,
                ⟨"db", "[info]", "late", 300⟩] := by
  refine ⟨rfl, rfl, rfl, rfl⟩

/-! ## Lock discipline -/

/-- C10 (lock discipline), evaluated on the code. `insert` reads and assigns `buffer`
and performs no mutex operation, so its buffer accesses happen with the mutex not
held; the tick reads `len(buffer)` before any lock. Only the swap block accesses the
buffer between `Lock` and `Unlock`. -/
theorem insert_takes_no_lock (slack : Nat → Nat) (o : LoggerSqlite) (level text : String)
    (now : Nat) (ok : Nat → Bool) (w : World) :
    (insert slack o level text now w).trace = w.trace ++ [.bufRead, .bufWrite]
      ∧ lockDisciplined false [.bufRead, .bufWrite] = false
      ∧ (takeAndClear w).2.trace
          = w.trace ++ [.lock, .bufRead, .bufRead, .bufWrite, .unlock]
      ∧ lockDisciplined false [.lock, .bufRead, .bufRead, .bufWrite, .unlock] = true
      ∧ (w.buffer.len = 0 → w.sched = .running →
          (flushChecker ok .tick now w).trace = w.trace ++
              [.println "[logger][flushChecker] checking new logs to flush", .bufRead]
            ∧ lockDisciplined false
                [.println "[logger][flushChecker] checking new logs to flush", .bufRead]
              = false) := by
  refine ⟨rfl, rfl, rfl, rfl, ?_⟩
  intro hz hrun
  rw [flushChecker_tick_ok ok now w _ hrun (tickCase_empty ok now w hz)]
  exact ⟨rfl, rfl⟩

end Gogee

namespace Gogee

/-! ## Reachable worlds -/

theorem flushChecker_buffer (ok : Nat → Bool) (sig : Signal) (now : Nat) (w : World) :
    (flushChecker ok sig now w).buffer = w.buffer
      ∨ (flushChecker ok sig now w).buffer = { w.buffer with len := 0 } := by
  by_cases hrun : w.sched = .running
  · cases sig with
    | tick =>
      by_cases hz : w.buffer.len = 0
      · rw [flushChecker_tick_ok ok now w _ hrun (tickCase_empty ok now w hz)]
        exact Or.inl rfl
      · have hpos : 0 < w.buffer.len := Nat.pos_of_ne_zero hz
        rcases stmt_cases w with hst | ⟨st, hst⟩
        · rw [flushChecker_tick_error ok now w _ hrun (tickCase_nostmt ok now w hpos hst)]
          exact Or.inr rfl
        · rw [flushChecker_tick_ok ok now w _ hrun (tickCase_nonempty ok st now w hpos hst)]
          exact Or.inr rfl
    | cancel =>
      rcases stmt_cases w with hst | ⟨st, hst⟩
      · rw [flushChecker_cancel_error ok now w _ hrun (cancelCase_nostmt ok now w hst)]
        exact Or.inr rfl
      · rcases conn_cases w with hc | ⟨c, hc⟩
        · rw [flushChecker_cancel_error ok now w _ hrun (cancelCase_nil ok st now w hst hc)]
          exact Or.inr rfl
        · rw [flushChecker_cancel_ok ok now w _ hrun (cancelCase_conn ok st c now w hst hc)]
          exact Or.inr rfl
  · have h : flushChecker ok sig now w = w := by simp [flushChecker, hrun]
    rw [h]
    exact Or.inl rfl

theorem flushChecker_stable (ok : Nat → Bool) (sig : Signal) (now : Nat) (w0 w : World)
    (h : Stable w0 w) : Stable w0 (flushChecker ok sig now w) := by
  obtain ⟨evs, -, hc, hs, hh, -⟩ := flushChecker_effect ok sig now w
  refine ⟨hc.trans h.1, hs.trans h.2.1, ?_⟩
  rw [hh]
  rcases flushChecker_buffer ok sig now w with hb | hb
  · rw [hb]; exact h.2.2
  · rw [hb]
    exact ⟨Nat.zero_le _, h.2.2.2⟩

theorem sendCancel_stable (ok : Nat → Bool) (now : Nat) (w0 w : World)
    (h : Stable w0 w) : Stable w0 (sendCancel ok now w).2 := by
  unfold sendCancel
  split
  · exact flushChecker_stable ok .cancel now w0 w h
  · exact h

theorem action_stable (slack : Nat → Nat) (ok : Nat → Bool) (a : Action) (w0 w : World)
    (h : Stable w0 w) : Stable w0 (a.run slack ok w) := by
  cases a with
  | call c => exact ⟨by cases c with | mk f m t n => cases m <;> exact h.1,
      by cases c with | mk f m t n => cases m <;> exact h.2.1,
      call_ok slack c w h.2.2⟩
  | tick now => exact flushChecker_stable ok .tick now w0 w h
  | close o now =>
    exact sendCancel_stable ok now w0 (emit [.println "[logger] closing logger"] w) h
  | ctxDone now =>
    show Stable w0 (ctxListener ok now w)
    unfold ctxListener
    split
    · split
      · exact flushChecker_stable ok .cancel now w0
          (emit [.wgDone] { w with bridge := false }) h
      · exact h
    · exact h

/-- Every world reached from `w` by calls, ticks, `Close` calls and context
cancellations keeps the handles of `w` and a well-formed buffer header. -/
theorem runActions_stable (slack : Nat → Nat) (ok : Nat → Bool) (as : List Action)
    (w0 w : World) (h : Stable w0 w) : Stable w0 (runActions slack ok as w) := by
  induction as generalizing w with
  | nil => exact h
  | cons a as ih =>
    simp only [runActions]
    split
    · exact h
    · exact ih _ (action_stable slack ok a w0 w h)

end Gogee

namespace Gogee

/-! ## Shutdown on a constructed logger -/

theorem NewLoggerSqlite_world (drv : Driver) (dbFilename : String) (ft : Nat)
    (lg : LoggerSqlite) (w0 : World)
    (hnew : NewLoggerSqlite drv dbFilename ft initWorld = .ok (lg, w0)) :
    ∃ s, w0 = { initWorld with flushTimeout := ft, stmt := some s, sched := .running,
                               bridge := true } := by
  unfold NewLoggerSqlite at hnew
  split at hnew
  · cases hnew
  · split at hnew
    · cases hnew
    · rename_i s _
      refine ⟨s, ?_⟩
      cases hnew
      rfl

theorem flushChecker_live (ok : Nat → Bool) (sig : Signal) (now : Nat) (w : World)
    (hconn : w.conn = none) (hl : Live w) : Live (flushChecker ok sig now w) := by
  by_cases hrun : w.sched = .running
  · cases sig with
    | tick =>
      by_cases hz : w.buffer.len = 0
      · rw [flushChecker_tick_ok ok now w _ hrun (tickCase_empty ok now w hz)]
        exact Or.inl hrun
      · have hpos : 0 < w.buffer.len := Nat.pos_of_ne_zero hz
        rcases stmt_cases w with hst | ⟨st, hst⟩
        · rw [flushChecker_tick_error ok now w _ hrun (tickCase_nostmt ok now w hpos hst)]
          exact Or.inr rfl
        · rw [flushChecker_tick_ok ok now w _ hrun (tickCase_nonempty ok st now w hpos hst)]
          exact Or.inl hrun
    | cancel =>
      rcases stmt_cases w with hst | ⟨st, hst⟩
      · rw [flushChecker_cancel_error ok now w _ hrun (cancelCase_nostmt ok now w hst)]
        exact Or.inr rfl
      · rw [flushChecker_cancel_error ok now w _ hrun (cancelCase_nil ok st now w hst hconn)]
        exact Or.inr rfl
  · have h : flushChecker ok sig now w = w := by simp [flushChecker, hrun]
    rw [h]
    exact hl

theorem action_live (slack : Nat → Nat) (ok : Nat → Bool) (a : Action) (w : World)
    (hconn : w.conn = none) (hl : Live w) : Live (a.run slack ok w) := by
  cases a with
  | call c =>
    obtain ⟨_, -, -, -, hs⟩ := call_trace slack c w
    show (c.run slack w).sched = .running ∨ (c.run slack w).sched = .crashed
    rw [hs]
    exact hl
  | tick now => exact flushChecker_live ok .tick now w hconn hl
  | close o now =>
    show Live (sendCancel ok now (emit [.println "[logger] closing logger"] w)).2
    unfold sendCancel
    split
    · exact flushChecker_live ok .cancel now _ hconn hl
    · exact hl
  | ctxDone now =>
    show Live (ctxListener ok now w)
    unfold ctxListener
    split
    · split
      · exact flushChecker_live ok .cancel now _ hconn hl
      · exact hl
    · exact hl

theorem runActions_live (slack : Nat → Nat) (ok : Nat → Bool) (as : List Action)
    (w0 w : World) (h0 : w0.conn = none) (hs : Stable w0 w) (hl : Live w) :
    Live (runActions slack ok as w) := by
  induction as generalizing w with
  | nil => exact hl
  | cons a as ih =>
    simp only [runActions]
    split
    · exact hl
    · exact ih _ (action_stable slack ok a w0 w hs)
        (action_live slack ok a w (hs.1.trans h0) hl)

theorem cancel_panics (ok : Nat → Bool) (now st : Nat) (w : World)
    (hrun : w.sched = .running) (hst : w.stmt = some st) (hconn : w.conn = none) :
    (flushChecker ok .cancel now w).sched = .crashed
      ∧ (flushChecker ok .cancel now w).trace.getLast? = some .panic := by
  rw [flushChecker_cancel_error ok now w _ hrun (cancelCase_nil ok st now w hst hconn)]
  refine ⟨rfl, ?_⟩
  show (w.trace ++ _).getLast? = _
  rw [List.getLast?_append, getLast_swapFlush_panic]
  rfl

/-- C7 (idempotent shutdown), evaluated on the code. On the logger `NewLoggerSqlite`
returns (positive flush interval), after every sequence of calls, ticks, `Close` calls
and context cancellations: the scheduler is in its loop or dead in a panic, never
Closed; at most one drain flush was spawned and `conn.Close()` was called at most once;
and while the scheduler is in its loop, the first shutdown signal, a `Close` call or
the context cancellation, ends in the panic of `Close` on the nil `conn`. No state
exists in which a second shutdown signal finds a drain completed. -/
theorem shutdown_never_closes (drv : Driver) (dbFilename : String) (ft : Nat)
    (lg : LoggerSqlite) (w0 : World) (_hft : 0 < ft)
    (hnew : NewLoggerSqlite drv dbFilename ft initWorld = .ok (lg, w0))
    (slack : Nat → Nat) (ok : Nat → Bool) (as : List Action) :
    ((runActions slack ok as w0).sched = .running
        ∨ (runActions slack ok as w0).sched = .crashed)
      ∧ countEv (.goFlush .drain) (runActions slack ok as w0).trace ≤ 1
      ∧ closeCalls (runActions slack ok as w0).trace ≤ 1
      ∧ ((runActions slack ok as w0).sched = .running → ∀ o now,
          (Close ok o now (runActions slack ok as w0)).sched = .crashed
            ∧ (Close ok o now (runActions slack ok as w0)).trace.getLast? = some .panic
            ∧ ((runActions slack ok as w0).bridge = true →
                (ctxListener ok now (runActions slack ok as w0)).sched = .crashed
                  ∧ (ctxListener ok now (runActions slack ok as w0)).trace.getLast?
                      = some .panic)) := by
  obtain ⟨s, rfl⟩ := NewLoggerSqlite_world drv dbFilename ft lg w0 hnew
  have hst0 : Stable
      { initWorld with flushTimeout := ft, stmt := some s, sched := .running, bridge := true }
      { initWorld with flushTimeout := ft, stmt := some s, sched := .running, bridge := true } :=
    ⟨rfl, rfl, Nat.le_refl 0, Nat.zero_le _⟩
  have hstab := runActions_stable slack ok as _ _ hst0
  have hlive := runActions_live slack ok as _ _ rfl hst0 (Or.inl rfl)
  have hinv := runActions_inv slack ok as
    { initWorld with flushTimeout := ft, stmt := some s, sched := .running, bridge := true }
    ⟨fun _ => ⟨rfl, rfl⟩, Nat.zero_le _, Nat.zero_le _⟩
  generalize runActions slack ok as
    { initWorld with flushTimeout := ft, stmt := some s, sched := .running, bridge := true }
    = w at hstab hlive hinv
  have hconn : w.conn = none := hstab.1
  have hstmt : w.stmt = some s := hstab.2.1
  refine ⟨hlive, hinv.2.1, hinv.2.2, ?_⟩
  intro hrun o now
  have hc : Close ok o now w
      = flushChecker ok .cancel now (emit [.println "[logger] closing logger"] w) := by
    have h : (emit [.println "[logger] closing logger"] w).sched = .running := hrun
    simp only [Close, sendCancel, if_pos h]
  have h1 := cancel_panics ok now s (emit [.println "[logger] closing logger"] w)
    hrun hstmt hconn
  rw [hc]
  refine ⟨h1.1, h1.2, ?_⟩
  intro hb
  have hl : ctxListener ok now w
      = flushChecker ok .cancel now (emit [.wgDone] { w with bridge := false }) := by
    simp only [ctxListener, if_pos hb, if_pos hrun]
  rw [hl]
  exact cancel_panics ok now s (emit [.wgDone] { w with bridge := false }) hrun hstmt hconn

/-- C7 at a concrete input: the logger built on the driver where everything succeeds,
one `Info` call, then `Close()`; and the same with the context cancelled instead. -/
theorem shutdown_never_closes_witness :
    0 < 5
    ∧ NewLoggerSqlite goodDriver "logs.db" 5 initWorld = .ok (⟨""⟩, startWorld)
    ∧ (runActions noSlack allOk [.call ⟨⟨"svc"⟩, .Info, "a", 1⟩] startWorld).sched = .running
    ∧ (Close allOk ⟨""⟩ 2
        (runActions noSlack allOk [.call ⟨⟨"svc"⟩, .Info, "a", 1⟩] startWorld)).sched
        = .crashed
    ∧ (Close allOk ⟨""⟩ 2
        (runActions noSlack allOk [.call ⟨⟨"svc"⟩, .Info, "a", 1⟩] startWorld)).trace.getLast?
        = some .panic
    ∧ (ctxListener allOk 2
        (runActions noSlack allOk [.call ⟨⟨"svc"⟩, .Info, "a", 1⟩] startWorld)).sched
        = .crashed
    ∧ (runActions noSlack allOk
        [.call ⟨⟨"svc"⟩, .Info, "a", 1⟩, .close ⟨""⟩ 2, .close ⟨""⟩ 3] startWorld).sched
        = .crashed :=
  ⟨by decide, rfl, rfl,
   ((shutdown_never_closes goodDriver "logs.db" 5 ⟨""⟩ startWorld (by decide) rfl noSlack allOk
      [.call ⟨⟨"svc"⟩, .Info, "a", 1⟩]).2.2.2 rfl ⟨""⟩ 2).1,
   ((shutdown_never_closes goodDriver "logs.db" 5 ⟨""⟩ startWorld (by decide) rfl noSlack allOk
      [.call ⟨⟨"svc"⟩, .Info, "a", 1⟩]).2.2.2 rfl ⟨""⟩ 2).2.1,
   (((shutdown_never_closes goodDriver "logs.db" 5 ⟨""⟩ startWorld (by decide) rfl noSlack allOk
      [.call ⟨⟨"svc"⟩, .Info, "a", 1⟩]).2.2.2 rfl ⟨""⟩ 2).2.2 rfl).1,
   by decide⟩

end Gogee
